import Mathlib

/-!
Verification development for the bedpe-to-clusters pipeline
(`bedpe_to_clusters.py`).

The pipeline reads a six-column BEDPE table of chromatin interaction
records, converts the genomic coordinate ranges of each record into inclusive
bin-index ranges at a fixed matrix resolution, expands each range pair
into a set of contact-matrix pixels (a cluster), groups the clusters by
chromosome (keeping only cis records), and serializes the cluster list of
each chromosome to a nested-array JSON document.

The embedding below is shallow: records are a structure, Python integers
are `Int`, Python true division followed by `np.floor` / `np.ceil` is
rational division followed by `Int.floor` / `Int.ceil`, Python `range` is
an explicit integer-range list, Python set construction is `List.toFinset`,
and the per-chromosome dictionary is an association list keyed by the
chromosome key list the source computes.
-/

/-- One row of the input table, as read by the source with
column names chrom1, start1, end1, chrom2, start2, end2. -/
structure InteractionRecord where
  chrom1 : String
  start1 : Int
  end1 : Int
  chrom2 : String
  start2 : Int
  end2 : Int
deriving DecidableEq, Repr

/-- Embeds the source line computing the minimum row bin index:
np.floor(bedpe_row[start1] / matrix_resolution).astype(int). -/
def row_min (r : InteractionRecord) (res : Int) : Int :=
  ⌊(r.start1 : ℚ) / (res : ℚ)⌋

/-- Embeds the source line computing the minimum column bin index:
np.floor(bedpe_row[start2] / matrix_resolution).astype(int). -/
def col_min (r : InteractionRecord) (res : Int) : Int :=
  ⌊(r.start2 : ℚ) / (res : ℚ)⌋

/-- Embeds the source line computing the maximum row bin index:
np.ceil(bedpe_row[end1] / matrix_resolution).astype(int) - 1. -/
def row_max (r : InteractionRecord) (res : Int) : Int :=
  ⌈(r.end1 : ℚ) / (res : ℚ)⌉ - 1

/-- Embeds the source line computing the maximum column bin index:
np.ceil(bedpe_row[end2] / matrix_resolution).astype(int) - 1. -/
def col_max (r : InteractionRecord) (res : Int) : Int :=
  ⌈(r.end2 : ℚ) / (res : ℚ)⌉ - 1

/-- Embeds the Python expression range(a, b) over integers: the list
a, a+1, ..., b-1, empty when b <= a. -/
def intRange (a b : Int) : List Int :=
  (List.range (b - a).toNat).map (fun (k : Nat) => a + (k : Int))

/-- Embeds the pixel enumeration order of the set comprehension in
bedpe_row_to_cluster: i iterates over range(row_min, row_max + 1) and, for
each i, j iterates over range(col_min, col_max + 1). -/
def pixelList (r : InteractionRecord) (res : Int) : List (Int × Int) :=
  (intRange (row_min r res) (row_max r res + 1)).flatMap
    (fun i => (intRange (col_min r res) (col_max r res + 1)).map (fun j => (i, j)))

/-- Embeds bedpe_row_to_cluster: the set of pixels built from the
enumeration of the comprehension. -/
def bedpe_row_to_cluster (r : InteractionRecord) (res : Int) : Finset (Int × Int) :=
  (pixelList r res).toFinset

/-- Embeds the chromosome key computation of bedpe_to_clusters:
set(bedpe_df.chrom1.unique()).union(set(bedpe_df.chrom1.unique())), i.e.
the distinct chrom1 values unioned with themselves. -/
def chromKeys (records : List InteractionRecord) : List String :=
  ((records.map (fun r => r.chrom1)).dedup) ∪ ((records.map (fun r => r.chrom1)).dedup)

/-- Embeds the per-chromosome list comprehension of bedpe_to_clusters:
the rows satisfying the query chrom1 == @chrom and chrom2 == @chrom, in
table order, each converted by bedpe_row_to_cluster. -/
def clustersFor (records : List InteractionRecord) (res : Int) (chrom : String) :
    List (Finset (Int × Int)) :=
  (records.filter (fun r => r.chrom1 == chrom && r.chrom2 == chrom)).map
    (fun r => bedpe_row_to_cluster r res)

/-- Embeds the dictionary comprehension of bedpe_to_clusters: one entry
per chromosome key, whose value is the cluster list of that chromosome. -/
def bedpe_to_clusters (records : List InteractionRecord) (res : Int) :
    List (String × List (Finset (Int × Int))) :=
  (chromKeys records).map (fun c => (c, clustersFor records res c))

/-- Variant of clustersFor in which the enumeration order of the pixels
of each record (internal to Python set construction) is an explicit
parameter, used to state that the produced sets do not depend on it. -/
def clustersForWith (enum : InteractionRecord → List (Int × Int))
    (records : List InteractionRecord) (chrom : String) : List (Finset (Int × Int)) :=
  (records.filter (fun r => r.chrom1 == chrom && r.chrom2 == chrom)).map
    (fun r => (enum r).toFinset)

/-- Variant of bedpe_to_clusters parameterized by the internal pixel
enumeration order. -/
def bedpe_to_clustersWith (enum : InteractionRecord → List (Int × Int))
    (records : List InteractionRecord) : List (String × List (Finset (Int × Int))) :=
  (chromKeys records).map (fun c => (c, clustersForWith enum records c))

/-- Error raised on a malformed input row. -/
inductive ParseError where
  | insufficientColumns : ParseError
  | nonIntegerCoordinate : ParseError
deriving DecidableEq, Repr

/-- Modelled from the spec: the Record Parser of the source is a call to an
external tabular-reading library (pandas.read_csv with sep tab and
usecols range(6)), whose code is not part of this repository. Following
the spec, a line is given by its tab-separated fields, its first six
fields are read as chrom1, start1, end1, chrom2, start2, end2, a line
with fewer than six fields is a ParseError, and a coordinate field that
is not integer-parseable is a ParseError. -/
def parseRecordLine (fs : List String) : Except ParseError InteractionRecord :=
  if fs.length < 6 then Except.error ParseError.insufficientColumns
  else
    match (fs.getD 1 "").toInt?, (fs.getD 2 "").toInt?,
          (fs.getD 4 "").toInt?, (fs.getD 5 "").toInt? with
    | some s1, some e1, some s2, some e2 =>
        Except.ok ⟨fs.getD 0 "", s1, e1, fs.getD 3 "", s2, e2⟩
    | _, _, _, _ => Except.error ParseError.nonIntegerCoordinate

/-- Modelled from the spec: the whole-file parse fails on the first
malformed line and produces no records in that case (the run aborts; no
row is skipped-and-continued). -/
def parseBedpe : List (List String) → Except ParseError (List InteractionRecord)
  | [] => Except.ok []
  | line :: rest =>
    match parseRecordLine line with
    | Except.error e => Except.error e
    | Except.ok r =>
      match parseBedpe rest with
      | Except.error e => Except.error e
      | Except.ok rs => Except.ok (r :: rs)

/-- Decides whether a line is malformed in the sense of the spec: fewer
than six tab-separated fields, or a coordinate field that is not
integer-parseable. -/
def badLine (fs : List String) : Bool :=
  decide (fs.length < 6) || (fs.getD 1 "").toInt?.isNone || (fs.getD 2 "").toInt?.isNone ||
    (fs.getD 4 "").toInt?.isNone || (fs.getD 5 "").toInt?.isNone

/-- JSON values as produced by the serializer: integers, floating values
and arrays are the only shapes the pipeline emits. -/
inductive Json where
  | int : Int → Json
  | float : ℚ → Json
  | arr : List Json → Json

/-- Numeric values as they reach the encoder: native Python integers, or
numpy integer and numpy floating scalars. -/
inductive PyVal where
  | pyInt : Int → PyVal
  | npInt : Int → PyVal
  | npFloat : ℚ → PyVal

/-- Embeds json.dump with cls NumpyEncoder on a numeric value: a native
int is encoded directly; a numpy integer obj goes through
NumpyEncoder.default, which returns int(obj); a numpy floating obj goes
through NumpyEncoder.default, which returns float(obj). -/
def encodeValue : PyVal → Json
  | PyVal.pyInt n => Json.int n
  | PyVal.npInt n => Json.int n
  | PyVal.npFloat q => Json.float q

/-- Embeds the innermost list [i, j] built by save_clusters for one
pixel. -/
def pixelJson (p : Int × Int) : Json :=
  Json.arr [Json.int p.1, Json.int p.2]

/-- Embeds the document built by save_clusters:
[[[i, j] for i, j in c] for c in clusters], with each cluster given by
the enumeration order of its pixel set. -/
def save_clusters_doc (clusters : List (List (Int × Int))) : Json :=
  Json.arr (clusters.map (fun c => Json.arr (c.map pixelJson)))

/-- Pixel encoding when the coordinates are arbitrary numeric values
passed through the NumpyEncoder-backed dump. -/
def pixelJsonPy (p : PyVal × PyVal) : Json :=
  Json.arr [encodeValue p.1, encodeValue p.2]

/-- Document built by save_clusters when the coordinates reaching the
encoder are arbitrary numeric values. -/
def save_clusters_doc_py (clusters : List (List (PyVal × PyVal))) : Json :=
  Json.arr (clusters.map (fun c => Json.arr (c.map pixelJsonPy)))

/-- Tags every coordinate of a pixel list as a numpy integer. -/
def asNpPixels (c : List (Int × Int)) : List (PyVal × PyVal) :=
  c.map (fun p => (PyVal.npInt p.1, PyVal.npInt p.2))

/-- Tags every coordinate of a pixel list as a native integer. -/
def asNativePixels (c : List (Int × Int)) : List (PyVal × PyVal) :=
  c.map (fun p => (PyVal.pyInt p.1, PyVal.pyInt p.2))

/-- Floor of the exact rational division of two integers agrees with
integer floor division when the divisor is positive. -/
theorem floor_div_int (a b : Int) (hb : 0 < b) : ⌊(a : ℚ) / (b : ℚ)⌋ = a.fdiv b := by
  have hb0 : ((b.toNat : ℕ) : Int) = b := Int.toNat_of_nonneg hb.le
  have hcast : ((b : Int) : ℚ) = ((b.toNat : ℕ) : ℚ) := by exact_mod_cast hb0.symm
  rw [hcast, Rat.floor_intCast_div_natCast a b.toNat, Int.fdiv_eq_ediv a hb.le, hb0]

/-- Ceiling of the exact rational division of two integers is one more
than the integer floor division of the predecessor of the numerator,
when the divisor is positive. -/
theorem ceil_div_int (a b : Int) (hb : 0 < b) : ⌈(a : ℚ) / (b : ℚ)⌉ = (a - 1).fdiv b + 1 := by
  have hq : (0 : ℚ) < (b : ℚ) := by exact_mod_cast hb
  have hfl : ⌊((a - 1 : Int) : ℚ) / (b : ℚ)⌋ = (a - 1).fdiv b := floor_div_int (a - 1) b hb
  have h1 : (((a - 1).fdiv b : Int) : ℚ) ≤ ((a - 1 : Int) : ℚ) / (b : ℚ) := by
    rw [← hfl]; exact Int.floor_le _
  have h2 : ((a - 1 : Int) : ℚ) / (b : ℚ) < ((a - 1).fdiv b : Int) + 1 := by
    rw [← hfl]; exact Int.lt_floor_add_one _
  have hgap : (a : ℚ) / (b : ℚ) - ((a : ℚ) - 1) / (b : ℚ) = 1 / (b : ℚ) := by
    rw [div_sub_div_same]; norm_num
  have hpos : (0 : ℚ) < 1 / (b : ℚ) := by positivity
  rw [Int.ceil_eq_iff]
  constructor
  · push_cast
    push_cast at h1
    have : ((a - 1).fdiv b : ℚ) ≤ ((a : ℚ) - 1) / (b : ℚ) := h1
    linarith
  · push_cast
    push_cast at h2
    have hint : (a : ℚ) - 1 < (((a - 1).fdiv b : ℚ) + 1) * (b : ℚ) := by
      have := (div_lt_iff₀ hq).mp h2
      linarith
    have hint2 : (a - 1 : Int) < ((a - 1).fdiv b + 1) * b := by exact_mod_cast hint
    have hint3 : (a : Int) ≤ ((a - 1).fdiv b + 1) * b := by linarith
    rw [div_le_iff₀ hq]
    exact_mod_cast hint3

/-- Membership in the integer range list mirrors Python range
semantics. -/
theorem mem_intRange {x a b : Int} : x ∈ intRange a b ↔ a ≤ x ∧ x < b := by
  unfold intRange
  simp only [List.mem_map, List.mem_range]
  constructor
  · rintro ⟨k, hk, rfl⟩
    omega
  · rintro ⟨h1, h2⟩
    exact ⟨(x - a).toNat, by omega, by omega⟩

/-- Membership in the pixel enumeration of a record. -/
theorem mem_pixelList {r : InteractionRecord} {res : Int} {p : Int × Int} :
    p ∈ pixelList r res ↔
      (row_min r res ≤ p.1 ∧ p.1 ≤ row_max r res) ∧
      (col_min r res ≤ p.2 ∧ p.2 ≤ col_max r res) := by
  unfold pixelList
  simp only [List.mem_flatMap, List.mem_map, mem_intRange]
  constructor
  · rintro ⟨i, hi, j, hj, rfl⟩
    exact ⟨⟨hi.1, by omega⟩, hj.1, by omega⟩
  · rintro ⟨⟨h1, h2⟩, h3, h4⟩
    exact ⟨p.1, ⟨h1, by omega⟩, p.2, ⟨h3, by omega⟩, rfl⟩

/-- Membership in the cluster of a record. -/
theorem mem_cluster {r : InteractionRecord} {res : Int} {p : Int × Int} :
    p ∈ bedpe_row_to_cluster r res ↔
      (row_min r res ≤ p.1 ∧ p.1 ≤ row_max r res) ∧
      (col_min r res ≤ p.2 ∧ p.2 ≤ col_max r res) := by
  unfold bedpe_row_to_cluster
  rw [List.mem_toFinset]
  exact mem_pixelList

/-- Sample record from the spec scenario: chr1 10000 20000 chr1 30000 50000. -/
def sampleRecord : InteractionRecord :=
  { chrom1 := "chr1", start1 := 10000, end1 := 20000,
    chrom2 := "chr1", start2 := 30000, end2 := 50000 }

/-- C1: for every InteractionRecord and every positive integer resolution,
the range computation of bedpe_row_to_cluster returns
rowMin = floor(start1 / resolution), rowMax = ceil(end1 / resolution) - 1,
colMin = floor(start2 / resolution), colMax = ceil(end2 / resolution) - 1,
and these agree with exact integer floor-division arithmetic (so boundary
coordinates divisible by the resolution are not off by one); in
particular start1 = 0, end1 = resolution gives rowMin = rowMax = 0, and
start1 = resolution, end1 = 2 * resolution gives rowMin = rowMax = 1. -/
theorem binner_exact_integer_arithmetic (r : InteractionRecord) (res : Int) (hres : 0 < res) :
    row_min r res = r.start1.fdiv res ∧
    row_max r res = (r.end1 - 1).fdiv res ∧
    col_min r res = r.start2.fdiv res ∧
    col_max r res = (r.end2 - 1).fdiv res ∧
    (r.start1 = 0 → r.end1 = res → row_min r res = 0 ∧ row_max r res = 0) ∧
    (r.start1 = res → r.end1 = 2 * res → row_min r res = 1 ∧ row_max r res = 1) := by
  have hmin : row_min r res = r.start1.fdiv res := floor_div_int r.start1 res hres
  have hmax : row_max r res = (r.end1 - 1).fdiv res := by
    unfold row_max
    rw [ceil_div_int r.end1 res hres]
    ring
  have hcmin : col_min r res = r.start2.fdiv res := floor_div_int r.start2 res hres
  have hcmax : col_max r res = (r.end2 - 1).fdiv res := by
    unfold col_max
    rw [ceil_div_int r.end2 res hres]
    ring
  refine ⟨hmin, hmax, hcmin, hcmax, ?_, ?_⟩
  · intro h0 h1
    constructor
    · rw [hmin, h0, Int.fdiv_eq_ediv _ hres.le, Int.zero_ediv]
    · rw [hmax, h1, Int.fdiv_eq_ediv _ hres.le]
      exact Int.ediv_eq_zero_of_lt (by omega) (by omega)
  · intro h0 h1
    constructor
    · rw [hmin, h0, Int.fdiv_eq_ediv _ hres.le]
      exact Int.ediv_self (by omega)
    · rw [hmax, h1, Int.fdiv_eq_ediv _ hres.le]
      have hsplit : 2 * res - 1 = (res - 1) + 1 * res := by ring
      rw [hsplit, Int.add_mul_ediv_right _ _ (by omega : res ≠ 0),
        Int.ediv_eq_zero_of_lt (by omega) (by omega)]
      norm_num

/-- Witness for C1 at the spec scenario record and resolution 10000. -/
theorem binner_exact_integer_arithmetic_witness :
    (0 : Int) < 10000 ∧
      (row_min sampleRecord 10000 = sampleRecord.start1.fdiv 10000 ∧
       row_max sampleRecord 10000 = (sampleRecord.end1 - 1).fdiv 10000 ∧
       col_min sampleRecord 10000 = sampleRecord.start2.fdiv 10000 ∧
       col_max sampleRecord 10000 = (sampleRecord.end2 - 1).fdiv 10000 ∧
       (sampleRecord.start1 = 0 → sampleRecord.end1 = 10000 →
         row_min sampleRecord 10000 = 0 ∧ row_max sampleRecord 10000 = 0) ∧
       (sampleRecord.start1 = 10000 → sampleRecord.end1 = 2 * 10000 →
         row_min sampleRecord 10000 = 1 ∧ row_max sampleRecord 10000 = 1)) :=
  ⟨by decide, binner_exact_integer_arithmetic sampleRecord 10000 (by decide)⟩

/-- Strictly increasing the numerator across the floor/ceiling pair gives
a strict inequality of bin indices. -/
theorem floor_lt_ceil_of_lt {a b c : Int} (hc : 0 < c) (h : a < b) :
    ⌊(a : ℚ) / (c : ℚ)⌋ < ⌈(b : ℚ) / (c : ℚ)⌉ := by
  have hq : (0 : ℚ) < (c : ℚ) := by exact_mod_cast hc
  have h1 : (⌊(a : ℚ) / (c : ℚ)⌋ : ℚ) ≤ (a : ℚ) / (c : ℚ) := Int.floor_le _
  have h2 : (b : ℚ) / (c : ℚ) ≤ (⌈(b : ℚ) / (c : ℚ)⌉ : ℚ) := Int.le_ceil _
  have h3 : (a : ℚ) / (c : ℚ) < (b : ℚ) / (c : ℚ) := by
    have hd : (b : ℚ) / (c : ℚ) - (a : ℚ) / (c : ℚ) = ((b : ℚ) - (a : ℚ)) / (c : ℚ) :=
      div_sub_div_same _ _ _
    have hp : (0 : ℚ) < ((b : ℚ) - (a : ℚ)) / (c : ℚ) :=
      div_pos (by exact_mod_cast sub_pos.mpr h) hq
    linarith
  exact_mod_cast lt_of_le_of_lt h1 (lt_of_lt_of_le h3 h2)

/-- A bin index at most the top bin of a half-open interval starts
strictly before the interval ends. -/
theorem mul_lt_of_le_ceil_sub_one {i e c : Int} (hc : 0 < c)
    (h : i ≤ ⌈(e : ℚ) / (c : ℚ)⌉ - 1) : i * c < e := by
  have hq : (0 : ℚ) < (c : ℚ) := by exact_mod_cast hc
  have h1 : i < ⌈(e : ℚ) / (c : ℚ)⌉ := by omega
  have h2 : (i : ℚ) < (e : ℚ) / (c : ℚ) := Int.lt_ceil.mp h1
  have h3 : (i : ℚ) * (c : ℚ) < (e : ℚ) := (lt_div_iff₀ hq).mp h2
  exact_mod_cast h3

/-- A bin index at least the bottom bin of a half-open interval ends
strictly after the interval starts. -/
theorem lt_succ_mul_of_floor_le {i s c : Int} (hc : 0 < c)
    (h : ⌊(s : ℚ) / (c : ℚ)⌋ ≤ i) : s < (i + 1) * c := by
  have hq : (0 : ℚ) < (c : ℚ) := by exact_mod_cast hc
  have h1 : (s : ℚ) / (c : ℚ) < (⌊(s : ℚ) / (c : ℚ)⌋ : ℚ) + 1 := Int.lt_floor_add_one _
  have h2 : (s : ℚ) / (c : ℚ) < (i : ℚ) + 1 := by
    have hcast : (⌊(s : ℚ) / (c : ℚ)⌋ : ℚ) ≤ (i : ℚ) := by exact_mod_cast h
    linarith
  have h3 : (s : ℚ) < ((i : ℚ) + 1) * (c : ℚ) := (div_lt_iff₀ hq).mp h2
  exact_mod_cast h3

/-- C3: for every InteractionRecord with end1 > start1 and end2 > start2
and every positive resolution, the cluster is non-empty and every pixel
(i, j) in it satisfies i * resolution < end1,
(i + 1) * resolution > start1, j * resolution < end2, and
(j + 1) * resolution > start2. -/
theorem round_trip_coverage (r : InteractionRecord) (res : Int) (hres : 0 < res)
    (h1 : r.start1 < r.end1) (h2 : r.start2 < r.end2) :
    bedpe_row_to_cluster r res ≠ ∅ ∧
    ∀ i j, (i, j) ∈ bedpe_row_to_cluster r res →
      i * res < r.end1 ∧ r.start1 < (i + 1) * res ∧
      j * res < r.end2 ∧ r.start2 < (j + 1) * res := by
  have hrow : row_min r res ≤ row_max r res := by
    have hlt := floor_lt_ceil_of_lt (a := r.start1) (b := r.end1) hres h1
    unfold row_min row_max
    omega
  have hcol : col_min r res ≤ col_max r res := by
    have hlt := floor_lt_ceil_of_lt (a := r.start2) (b := r.end2) hres h2
    unfold col_min col_max
    omega
  constructor
  · apply Finset.ne_empty_of_mem (a := (row_min r res, col_min r res))
    rw [mem_cluster]
    exact ⟨⟨le_refl _, hrow⟩, le_refl _, hcol⟩
  · intro i j hmem
    rw [mem_cluster] at hmem
    obtain ⟨⟨hr1, hr2⟩, hc1, hc2⟩ := hmem
    exact ⟨mul_lt_of_le_ceil_sub_one hres hr2, lt_succ_mul_of_floor_le hres hr1,
      mul_lt_of_le_ceil_sub_one hres hc2, lt_succ_mul_of_floor_le hres hc1⟩

/-- Witness for C3 at the spec scenario record and resolution 10000. -/
theorem round_trip_coverage_witness :
    ((0 : Int) < 10000 ∧ sampleRecord.start1 < sampleRecord.end1 ∧
      sampleRecord.start2 < sampleRecord.end2) ∧
    (bedpe_row_to_cluster sampleRecord 10000 ≠ ∅ ∧
      ∀ i j, (i, j) ∈ bedpe_row_to_cluster sampleRecord 10000 →
        i * 10000 < sampleRecord.end1 ∧ sampleRecord.start1 < (i + 1) * 10000 ∧
        j * 10000 < sampleRecord.end2 ∧ sampleRecord.start2 < (j + 1) * 10000) :=
  ⟨⟨by decide, by decide, by decide⟩,
    round_trip_coverage sampleRecord 10000 (by decide) (by decide) (by decide)⟩

/-- C9: the cluster produced by bedpe_row_to_cluster is exactly the
Cartesian product of the inclusive row range and the inclusive column
range and, when both ranges are non-empty, its cardinality is exactly
(rowMax - rowMin + 1) * (colMax - colMin + 1). -/
theorem cluster_is_cartesian_product (r : InteractionRecord) (res : Int) :
    bedpe_row_to_cluster r res =
      Finset.Icc (row_min r res) (row_max r res) ×ˢ
        Finset.Icc (col_min r res) (col_max r res) ∧
    (row_min r res ≤ row_max r res → col_min r res ≤ col_max r res →
      ((bedpe_row_to_cluster r res).card : Int) =
        (row_max r res - row_min r res + 1) * (col_max r res - col_min r res + 1)) := by
  have hprod : bedpe_row_to_cluster r res =
      Finset.Icc (row_min r res) (row_max r res) ×ˢ
        Finset.Icc (col_min r res) (col_max r res) := by
    ext p
    rw [mem_cluster, Finset.mem_product, Finset.mem_Icc, Finset.mem_Icc]
  refine ⟨hprod, fun hr hc => ?_⟩
  rw [hprod, Finset.card_product, Int.card_Icc, Int.card_Icc, Nat.cast_mul,
    Int.toNat_of_nonneg (by omega), Int.toNat_of_nonneg (by omega)]
  ring

/-- Witness for C9 at the spec scenario record and resolution 10000. -/
theorem cluster_is_cartesian_product_witness :
    (row_min sampleRecord 10000 ≤ row_max sampleRecord 10000 ∧
      col_min sampleRecord 10000 ≤ col_max sampleRecord 10000) ∧
    ((bedpe_row_to_cluster sampleRecord 10000).card : Int) =
      (row_max sampleRecord 10000 - row_min sampleRecord 10000 + 1) *
        (col_max sampleRecord 10000 - col_min sampleRecord 10000 + 1) := by
  have h1 : row_min sampleRecord 10000 ≤ row_max sampleRecord 10000 := by
    norm_num [sampleRecord, row_min, row_max]
  have h2 : col_min sampleRecord 10000 ≤ col_max sampleRecord 10000 := by
    norm_num [sampleRecord, col_min, col_max]
  exact ⟨⟨h1, h2⟩, (cluster_is_cartesian_product sampleRecord 10000).2 h1 h2⟩

/-- Degenerate record used in witnesses: end1 = start1 on an exact bin
boundary at resolution 10000. -/
def degRecord : InteractionRecord :=
  { chrom1 := "chr1", start1 := 20000, end1 := 20000,
    chrom2 := "chr1", start2 := 30000, end2 := 50000 }

/-- C10: a cis record with end1 = start1 on an exact bin boundary
produces the empty cluster, which is still retained as an element of the
per-chromosome list; a degenerate anchor not on a bin boundary still
yields a non-empty row range. -/
theorem degenerate_anchor_empty_cluster_retained
    (records : List InteractionRecord) (r : InteractionRecord) (res : Int) (chrom : String)
    (hres : 0 < res) (hmem : r ∈ records) (hch1 : r.chrom1 = chrom) (hch2 : r.chrom2 = chrom)
    (hdeg : r.end1 = r.start1) :
    (res ∣ r.start1 →
      bedpe_row_to_cluster r res = ∅ ∧
      pixelList r res = [] ∧
      bedpe_row_to_cluster r res ∈ clustersFor records res chrom ∧
      (∅ : Finset (Int × Int)) ∈ clustersFor records res chrom) ∧
    (¬ res ∣ r.start1 → row_min r res ≤ row_max r res) := by
  have hclmem : bedpe_row_to_cluster r res ∈ clustersFor records res chrom := by
    unfold clustersFor
    refine List.mem_map.mpr ⟨r, ?_, rfl⟩
    rw [List.mem_filter]
    exact ⟨hmem, by simp [hch1, hch2]⟩
  constructor
  · rintro ⟨k, hk⟩
    have hne : (res : ℚ) ≠ 0 := by
      exact_mod_cast hres.ne.symm
    have hcast : ((res * k : Int) : ℚ) / (res : ℚ) = (k : ℚ) := by
      push_cast
      field_simp
    have hrmin : row_min r res = k := by
      unfold row_min
      rw [hk, hcast, Int.floor_intCast]
    have hrmax : row_max r res = k - 1 := by
      unfold row_max
      rw [hdeg, hk, hcast, Int.ceil_intCast]
    have h0 : (row_max r res + 1 - row_min r res).toNat = 0 := by
      rw [hrmin, hrmax]
      omega
    have hempty : pixelList r res = [] := by
      unfold pixelList intRange
      rw [h0]
      rfl
    have hcl : bedpe_row_to_cluster r res = ∅ := by
      unfold bedpe_row_to_cluster
      rw [hempty]
      rfl
    exact ⟨hcl, hempty, hclmem, hcl ▸ hclmem⟩
  · intro hndvd
    have hrmin : row_min r res = r.start1.fdiv res := floor_div_int r.start1 res hres
    have hrmax : row_max r res = (r.start1 - 1).fdiv res := by
      unfold row_max
      rw [hdeg, ceil_div_int r.start1 res hres]
      ring
    have hq := Int.ediv_add_emod r.start1 res
    have ht0 : 0 ≤ r.start1 % res := Int.emod_nonneg _ hres.ne.symm
    have ht1 : r.start1 % res < res := Int.emod_lt_of_pos _ hres
    have htne : r.start1 % res ≠ 0 := fun h => hndvd (Int.dvd_of_emod_eq_zero h)
    have hsplit : r.start1 - 1 = (r.start1 % res - 1) + (r.start1 / res) * res := by
      linarith [hq]
    have hfd : (r.start1 - 1).fdiv res = r.start1.fdiv res := by
      rw [Int.fdiv_eq_ediv _ hres.le, Int.fdiv_eq_ediv _ hres.le, hsplit,
        Int.add_mul_ediv_right _ _ hres.ne.symm,
        Int.ediv_eq_zero_of_lt (by omega) (by omega)]
      ring
    rw [hrmin, hrmax, hfd]

/-- Witness for C10: a single-record input whose degenerate anchor lies
on a bin boundary at resolution 10000. -/
theorem degenerate_anchor_empty_cluster_retained_witness :
    ((0 : Int) < 10000 ∧ degRecord ∈ [degRecord] ∧ degRecord.chrom1 = "chr1" ∧
      degRecord.chrom2 = "chr1" ∧ degRecord.end1 = degRecord.start1 ∧
      (10000 : Int) ∣ degRecord.start1) ∧
    (bedpe_row_to_cluster degRecord 10000 = ∅ ∧
      pixelList degRecord 10000 = [] ∧
      bedpe_row_to_cluster degRecord 10000 ∈ clustersFor [degRecord] 10000 "chr1" ∧
      (∅ : Finset (Int × Int)) ∈ clustersFor [degRecord] 10000 "chr1") :=
  ⟨⟨by decide, by decide, rfl, rfl, rfl, by decide⟩,
    (degenerate_anchor_empty_cluster_retained [degRecord] degRecord 10000 "chr1"
      (by decide) (by decide) rfl rfl rfl).1 (by decide)⟩

/-- C2: for every chromosome key present in the result, the cluster list
at that key is exactly one cluster per cis record with chrom1 = key and
chrom2 = key, in input order, and every cluster in the list of any chromosome
comes from a record whose two anchors are on that chromosome (so no
pixel derived from a trans record appears anywhere). -/
theorem cis_only_per_chromosome_lists (records : List InteractionRecord) (res : Int)
    (chrom : String) (l : List (Finset (Int × Int)))
    (hmem : (chrom, l) ∈ bedpe_to_clusters records res) :
    l = (records.filter (fun r => r.chrom1 == chrom && r.chrom2 == chrom)).map
        (fun r => bedpe_row_to_cluster r res) ∧
    ∀ cl ∈ l, ∃ r, r ∈ records ∧ r.chrom1 = chrom ∧ r.chrom2 = chrom ∧
      cl = bedpe_row_to_cluster r res := by
  unfold bedpe_to_clusters at hmem
  rw [List.mem_map] at hmem
  obtain ⟨c, hc, heq⟩ := hmem
  injection heq with h1 h2
  subst h1
  subst h2
  constructor
  · rfl
  · intro cl hcl
    unfold clustersFor at hcl
    rw [List.mem_map] at hcl
    obtain ⟨r, hrf, rfl⟩ := hcl
    rw [List.mem_filter] at hrf
    obtain ⟨hrm, hrq⟩ := hrf
    rw [Bool.and_eq_true, beq_iff_eq, beq_iff_eq] at hrq
    exact ⟨r, hrm, hrq.1, hrq.2, rfl⟩

/-- Witness for C2 on a one-record input. -/
theorem cis_only_per_chromosome_lists_witness :
    ("chr1", clustersFor [sampleRecord] 10000 "chr1") ∈ bedpe_to_clusters [sampleRecord] 10000 ∧
    (clustersFor [sampleRecord] 10000 "chr1" =
        ([sampleRecord].filter (fun r => r.chrom1 == "chr1" && r.chrom2 == "chr1")).map
          (fun r => bedpe_row_to_cluster r 10000) ∧
      ∀ cl ∈ clustersFor [sampleRecord] 10000 "chr1", ∃ r, r ∈ [sampleRecord] ∧
        r.chrom1 = "chr1" ∧ r.chrom2 = "chr1" ∧ cl = bedpe_row_to_cluster r 10000) := by
  have hmem : ("chr1", clustersFor [sampleRecord] 10000 "chr1") ∈
      bedpe_to_clusters [sampleRecord] 10000 := by
    unfold bedpe_to_clusters
    exact List.mem_map.mpr ⟨"chr1", by decide, rfl⟩
  exact ⟨hmem, cis_only_per_chromosome_lists [sampleRecord] 10000 "chr1" _ hmem⟩

/-- C4: the key set of the result is exactly the set of chrom1 values of
the input; a chromosome occurring only in the chrom2 column is not a
key. -/
theorem chromosome_keys_from_chrom1 (records : List InteractionRecord) (res : Int)
    (chrom : String) :
    ((∃ l, (chrom, l) ∈ bedpe_to_clusters records res) ↔ ∃ r ∈ records, r.chrom1 = chrom) ∧
    ((∀ r ∈ records, r.chrom1 ≠ chrom) →
      ∀ l, (chrom, l) ∉ bedpe_to_clusters records res) := by
  have hkey : (∃ l, (chrom, l) ∈ bedpe_to_clusters records res) ↔ chrom ∈ chromKeys records := by
    unfold bedpe_to_clusters
    constructor
    · rintro ⟨l, hl⟩
      rw [List.mem_map] at hl
      obtain ⟨c, hc, heq⟩ := hl
      injection heq with h1 h2
      subst h1
      exact hc
    · intro hc
      exact ⟨clustersFor records res chrom, List.mem_map.mpr ⟨chrom, hc, rfl⟩⟩
  have hchrom : chrom ∈ chromKeys records ↔ ∃ r ∈ records, r.chrom1 = chrom := by
    unfold chromKeys
    rw [List.mem_union_iff]
    simp only [List.mem_dedup, List.mem_map, or_self]
  constructor
  · exact hkey.trans hchrom
  · intro h l hl
    obtain ⟨r, hr, hceq⟩ := (hkey.trans hchrom).mp ⟨l, hl⟩
    exact h r hr hceq

/-- Trans record used in witnesses: anchors on different chromosomes. -/
def transRecord : InteractionRecord :=
  { chrom1 := "chr1", start1 := 0, end1 := 10000,
    chrom2 := "chr2", start2 := 0, end2 := 10000 }

/-- Witness for C4: a chromosome name that appears only in chrom2 is not
a key of the result. -/
theorem chromosome_keys_from_chrom1_witness :
    (∀ r ∈ [transRecord], r.chrom1 ≠ "chr2") ∧
    (∀ l, ("chr2", l) ∉ bedpe_to_clusters [transRecord] 10000) :=
  ⟨by decide, (chromosome_keys_from_chrom1 [transRecord] 10000 "chr2").2 (by decide)⟩

/-- C8: running the pipeline twice on the identical records and
resolution produces identical per-chromosome cluster lists, independent
of the internal enumeration order used to build each pixel set. -/
theorem pipeline_deterministic (records : List InteractionRecord) (res : Int)
    (enum1 enum2 : InteractionRecord → List (Int × Int))
    (h1 : ∀ r, (enum1 r).Perm (pixelList r res))
    (h2 : ∀ r, (enum2 r).Perm (pixelList r res)) :
    bedpe_to_clustersWith enum1 records = bedpe_to_clustersWith enum2 records ∧
    bedpe_to_clustersWith enum1 records = bedpe_to_clusters records res := by
  have key : ∀ enum : InteractionRecord → List (Int × Int),
      (∀ r, (enum r).Perm (pixelList r res)) →
      bedpe_to_clustersWith enum records = bedpe_to_clusters records res := by
    intro enum h
    unfold bedpe_to_clustersWith bedpe_to_clusters
    apply List.map_congr_left
    intro c _
    have hcf : clustersForWith enum records c = clustersFor records res c := by
      unfold clustersForWith clustersFor
      apply List.map_congr_left
      intro r _
      unfold bedpe_row_to_cluster
      exact List.toFinset_eq_of_perm _ _ (h r)
    rw [hcf]
  exact ⟨(key enum1 h1).trans (key enum2 h2).symm, key enum1 h1⟩

/-- Witness for C8: the identity enumeration and the reversed enumeration
give the same pipeline output on a one-record input. -/
theorem pipeline_deterministic_witness :
    ((∀ r, (pixelList r 10000).Perm (pixelList r 10000)) ∧
      (∀ r, ((pixelList r 10000).reverse).Perm (pixelList r 10000))) ∧
    (bedpe_to_clustersWith (fun r => pixelList r 10000) [sampleRecord] =
        bedpe_to_clustersWith (fun r => (pixelList r 10000).reverse) [sampleRecord] ∧
      bedpe_to_clustersWith (fun r => pixelList r 10000) [sampleRecord] =
        bedpe_to_clusters [sampleRecord] 10000) :=
  ⟨⟨fun _ => List.Perm.refl _, fun _ => List.reverse_perm _⟩,
    pipeline_deterministic [sampleRecord] 10000 _ _ (fun _ => List.Perm.refl _)
      (fun _ => List.reverse_perm _)⟩

/-- A malformed line produces a parse error on its own. -/
theorem parseRecordLine_error_of_badLine {fs : List String} (h : badLine fs = true) :
    ∃ e, parseRecordLine fs = Except.error e := by
  unfold badLine at h
  unfold parseRecordLine
  by_cases hlen : fs.length < 6
  · exact ⟨ParseError.insufficientColumns, by rw [if_pos hlen]⟩
  · rw [if_neg hlen]
    simp only [hlen, decide_False, Bool.false_or, Bool.or_eq_true, Option.isNone_iff_eq_none] at h
    cases h1 : (fs.getD 1 "").toInt? <;> cases h2 : (fs.getD 2 "").toInt? <;>
      cases h4 : (fs.getD 4 "").toInt? <;> cases h5 : (fs.getD 5 "").toInt? <;>
      simp only [h1, h2, h4, h5] at h ⊢ <;>
      first
        | exact ⟨ParseError.nonIntegerCoordinate, rfl⟩
        | simp at h

/-- C5: the parse fails with a ParseError whenever some input line has
fewer than six fields or a coordinate field that is not
integer-parseable, the whole run aborting in that case; and a successful
parse returns one record per line, so no row is ever
skipped-and-continued. -/
theorem parser_fails_on_malformed_line (lines : List (List String)) :
    ((∃ l ∈ lines, badLine l = true) → ∃ e, parseBedpe lines = Except.error e) ∧
    (∀ recs, parseBedpe lines = Except.ok recs → recs.length = lines.length) := by
  induction lines with
  | nil =>
    constructor
    · rintro ⟨l, hl, -⟩
      exact absurd hl (List.not_mem_nil l)
    · intro recs hok
      simp only [parseBedpe] at hok
      injection hok with h
      rw [← h]
      rfl
  | cons head tail ih =>
    constructor
    · rintro ⟨l, hl, hbad⟩
      rcases List.mem_cons.mp hl with rfl | hl2
      · obtain ⟨e, he⟩ := parseRecordLine_error_of_badLine hbad
        refine ⟨e, ?_⟩
        unfold parseBedpe
        rw [he]
      · cases hpr : parseRecordLine head with
        | error e =>
          refine ⟨e, ?_⟩
          unfold parseBedpe
          rw [hpr]
        | ok r =>
          obtain ⟨e, he⟩ := ih.1 ⟨l, hl2, hbad⟩
          refine ⟨e, ?_⟩
          unfold parseBedpe
          rw [hpr, he]
    · intro recs hok
      unfold parseBedpe at hok
      cases hpr : parseRecordLine head with
      | error e =>
        rw [hpr] at hok
        simp at hok
      | ok r =>
        rw [hpr] at hok
        cases hrest : parseBedpe tail with
        | error e =>
          rw [hrest] at hok
          simp at hok
        | ok rs =>
          rw [hrest] at hok
          simp only at hok
          injection hok with h
          rw [← h]
          simp [ih.2 rs hrest]

/-- Malformed input line used in witnesses: only two fields. -/
def badFields : List String := ["chr1", "0"]

/-- Witness for C5 on a one-line input with too few fields. -/
theorem parser_fails_on_malformed_line_witness :
    (∃ l ∈ [badFields], badLine l = true) ∧
    ∃ e, parseBedpe [badFields] = Except.error e :=
  ⟨⟨badFields, by decide, by decide⟩,
    (parser_fails_on_malformed_line [badFields]).1 ⟨badFields, by decide, by decide⟩⟩

/-- C6: the JSON document written by save_clusters is an array with one
element per cluster in input order, each element an array with one
element per pixel of that cluster, each pixel encoded as the two-element
array [row, col]. -/
theorem save_clusters_doc_shape (clusters : List (List (Int × Int))) :
    ∃ l : List Json, save_clusters_doc clusters = Json.arr l ∧
      l.length = clusters.length ∧
      List.Forall₂ (fun (c : List (Int × Int)) (e : Json) =>
        ∃ pl : List Json, e = Json.arr pl ∧ pl.length = c.length ∧
          List.Forall₂ (fun (p : Int × Int) (x : Json) =>
            x = Json.arr [Json.int p.1, Json.int p.2]) c pl) clusters l := by
  refine ⟨clusters.map (fun c => Json.arr (c.map pixelJson)), ?_, by simp, ?_⟩
  · rfl
  rw [List.forall₂_map_right_iff]
  rw [List.forall₂_same]
  intro c _
  refine ⟨c.map pixelJson, rfl, by simp, ?_⟩
  rw [List.forall₂_map_right_iff, List.forall₂_same]
  intro p _
  rfl

/-- C7: serializing a cluster whose coordinates are numpy integers
produces the same JSON value as serializing it with native integers:
numpy integers are converted to plain integers and numpy floating values
to plain floating values before encoding, and the cluster containing the
single pixel (2, 5) encodes to the fragment [[2, 5]] in both cases. -/
theorem numpy_encoding_matches_native (clusters : List (List (Int × Int))) :
    save_clusters_doc_py (clusters.map asNpPixels) =
      save_clusters_doc_py (clusters.map asNativePixels) ∧
    save_clusters_doc_py (clusters.map asNpPixels) = save_clusters_doc clusters ∧
    (∀ n : Int, encodeValue (PyVal.npInt n) = encodeValue (PyVal.pyInt n)) ∧
    (∀ q : ℚ, encodeValue (PyVal.npFloat q) = Json.float q) ∧
    save_clusters_doc_py [asNpPixels [(2, 5)]] =
      Json.arr [Json.arr [Json.arr [Json.int 2, Json.int 5]]] := by
  have hnp : ∀ c : List (Int × Int), (asNpPixels c).map pixelJsonPy = c.map pixelJson := by
    intro c
    unfold asNpPixels
    rw [List.map_map]
    apply List.map_congr_left
    intro p _
    rfl
  have hnat : ∀ c : List (Int × Int), (asNativePixels c).map pixelJsonPy = c.map pixelJson := by
    intro c
    unfold asNativePixels
    rw [List.map_map]
    apply List.map_congr_left
    intro p _
    rfl
  have key : ∀ f : List (Int × Int) → List (PyVal × PyVal),
      (∀ c, (f c).map pixelJsonPy = c.map pixelJson) →
      save_clusters_doc_py (clusters.map f) = save_clusters_doc clusters := by
    intro f hf
    unfold save_clusters_doc_py save_clusters_doc
    rw [List.map_map]
    congr 1
    apply List.map_congr_left
    intro c _
    show Json.arr ((f c).map pixelJsonPy) = Json.arr (c.map pixelJson)
    rw [hf c]
  exact ⟨(key _ hnp).trans (key _ hnat).symm, key _ hnp, fun n => rfl, fun q => rfl, rfl⟩
